import Mathlib

/-!
Shallow embedding of the Mortgages repository (`app.py`, `main.py`):
a single-table mortgage-pipeline CRUD application backed by SQLite.
Text values are modelled as `List Char`, SQLite `REAL` values as `ℚ`,
and the `customers` table as a list of rows paired with the next
AUTOINCREMENT id.  All definitions are translated from the Python
source; theorems at the end of the file settle the specification
claims.
-/

namespace Mortgages

/-- Text values: Python/SQLite strings as lists of characters. -/
abbrev Str := List Char

/-! ### Python string primitives used by `app.py` -/

/-- Characters stripped by Python `str.strip()` (ASCII whitespace). -/
def pyIsSpace (c : Char) : Bool :=
  c == ' ' || c == '\t' || c == '\n' || c == '\r' || c == '\x0b' || c == '\x0c'

/-- Python `str.strip()`: drop leading and trailing whitespace. -/
def pystrip (s : Str) : Str :=
  ((s.dropWhile pyIsSpace).reverse.dropWhile pyIsSpace).reverse

/-- Python `str.upper()` restricted to ASCII, as used on 2-letter state codes. -/
def pyupper (s : Str) : Str := s.map Char.toUpper

/-! ### Validation (`app.py` lines 85-97)

`STATE_RE = re.compile(r"^[A-Za-z]{2}$")` and
`ZIP_RE = re.compile(r"^\d{5}(-\d{4})?$")`, applied with `re.match`.
In Python, `$` matches at the end of the string or just before a single
trailing newline; the matchers below reproduce exactly that semantics. -/

/-- Python `$` anchor: succeeds on the empty remainder or a single final newline. -/
def dollarEnd : Str → Bool
  | [] => true
  | [c] => c == '\n'
  | _ => false

/-- Python `re.match` of `^[A-Za-z]{2}$` against a string. -/
def STATE_RE_match (s : Str) : Bool :=
  match s with
  | a :: b :: rest => a.isAlpha && b.isAlpha && dollarEnd rest
  | _ => false

/-- Python `re.match` of `^\d{5}(-\d{4})?$` against a string. -/
def ZIP_RE_match (s : Str) : Bool :=
  match s with
  | d1 :: d2 :: d3 :: d4 :: d5 :: rest =>
      (d1.isDigit && d2.isDigit && d3.isDigit && d4.isDigit && d5.isDigit) &&
      (dollarEnd rest ||
        match rest with
        | h :: e1 :: e2 :: e3 :: e4 :: rest2 =>
            h == '-' && e1.isDigit && e2.isDigit && e3.isDigit && e4.isDigit &&
              dollarEnd rest2
        | _ => false)
  | _ => false

/-- The candidate record dictionary built by the form before insertion. -/
structure CRec where
  last_name : Str
  first_name : Str
  street : Str
  city : Str
  state : Str
  zip_code : Str
  loan_amount : ℚ
  estimated_value : ℚ
  occupancy_type : Str
deriving DecidableEq

def stateMsg : String := "State must be a 2-letter code (e.g., AZ, CA)."
def zipMsg : String := "Zip Code must be 5 digits or ZIP+4 (e.g., 85212 or 85212-1234)."
def loanMsg : String := "Loan amount must be greater than 0."
def valueMsg : String := "Estimated value must be greater than 0."

/-- Function `validate_inputs` from `app.py`: first failing rule wins, `none` on success. -/
def validate_inputs (d : CRec) : Option String :=
  if ¬ STATE_RE_match d.state then some stateMsg
  else if ¬ ZIP_RE_match d.zip_code then some zipMsg
  else if d.loan_amount ≤ 0 then some loanMsg
  else if d.estimated_value ≤ 0 then some valueMsg
  else none

/-! ### The `customers` table (`app.py` lines 16-60)

`id INTEGER PRIMARY KEY AUTOINCREMENT` together with
`created_at TEXT DEFAULT (datetime('now'))`.  Timestamps are modelled as
naturals; AUTOINCREMENT is modelled by a strictly growing `nextId`
counter that deletions never rewind (SQLite keeps it in
`sqlite_sequence`). -/

/-- One row of the `customers` table. -/
structure Row where
  id : ℕ
  last_name : Str
  first_name : Str
  street : Str
  city : Str
  state : Str
  zip_code : Str
  loan_amount : ℚ
  estimated_value : ℚ
  occupancy_type : Str
  created_at : ℕ
deriving DecidableEq

/-- The persistent database: stored rows in insertion order, plus the
AUTOINCREMENT counter. -/
structure DB where
  rows : List Row
  nextId : ℕ
deriving DecidableEq

/-- A fresh database: no rows, first assigned rowid is 1. -/
def initDB : DB := ⟨[], 1⟩

/-- The row produced by `INSERT INTO customers ...` for a candidate
record, with its assigned id and `datetime('now')` timestamp. -/
def mkRow (i : ℕ) (rec : CRec) (t : ℕ) : Row :=
  ⟨i, rec.last_name, rec.first_name, rec.street, rec.city, rec.state,
    rec.zip_code, rec.loan_amount, rec.estimated_value, rec.occupancy_type, t⟩

/-- Function `insert_customer` from `app.py`: append the new row, advance the counter. -/
def insert_customer (rec : CRec) (t : ℕ) (db : DB) : DB :=
  ⟨db.rows ++ [mkRow db.nextId rec t], db.nextId + 1⟩

/-- Function `delete_customer` from `app.py`: `DELETE FROM customers WHERE id = ?`. -/
def delete_customer (i : ℕ) (db : DB) : DB :=
  ⟨db.rows.filter (fun r => r.id ≠ i), db.nextId⟩

/-! ### `ORDER BY created_at DESC, id DESC` -/

/-- Row `a` sorts no later than row `b`: its key `(created_at, id)` is
lexicographically no smaller. -/
def rowLe (a b : Row) : Prop :=
  b.created_at < a.created_at ∨ (b.created_at = a.created_at ∧ b.id ≤ a.id)

/-- Row `a` sorts strictly before row `b` under the descending key. -/
def rowGt (a b : Row) : Prop :=
  b.created_at < a.created_at ∨ (b.created_at = a.created_at ∧ b.id < a.id)

instance : DecidableRel rowLe := fun a b => by
  unfold rowLe; exact inferInstance

instance : IsTotal Row rowLe := ⟨by intro a b; unfold rowLe; omega⟩

instance : IsTrans Row rowLe := ⟨by intro a b c; unfold rowLe; omega⟩

/-! ### SQLite `LIKE` (used by the name and city filters)

`X LIKE pattern`: `%` matches any sequence of characters, `_` matches any
single character, and comparison is ASCII case-insensitive. -/

/-- Does some suffix of the string (including the string itself and `[]`)
satisfy `f`?  Used to interpret a leading `%`. -/
def likeSuffixAny (f : Str → Bool) : Str → Bool
  | [] => f []
  | c :: s => f (c :: s) || likeSuffixAny f s

/-- Match one non-`%` pattern character (`_` matches anything, other
characters compare case-insensitively), then continue with `next`. -/
def likeStep (a : Char) (next : Str → Bool) : Str → Bool
  | [] => false
  | c :: s' =>
      (if a = '_' then true else Char.toLower a == Char.toLower c) && next s'

/-- SQLite `LIKE` matching of a whole string against a pattern. -/
def likeMatch : Str → Str → Bool
  | [] => fun s => s.isEmpty
  | a :: p =>
      if a = '%' then likeSuffixAny (likeMatch p) else likeStep a (likeMatch p)

/-- The pattern `f"%{v}%"` built by `fetch_customers`. -/
def likePat (v : Str) : Str := '%' :: (v ++ ['%'])

/-! ### `fetch_customers` (`app.py` lines 62-82) -/

/-- The optional `filters` dictionary passed to `fetch_customers`; a field
is `none` when its key is absent. -/
structure Filters where
  name : Option Str
  city : Option Str
  state : Option Str
deriving DecidableEq

/-- Python truthiness of `filters.get(key)`: an absent key or an empty
string does not contribute a `WHERE` condition. -/
def truthy : Option Str → Option Str
  | some s => if s = [] then none else some s
  | none => none

/-- The conjunction of `WHERE` conditions built by `fetch_customers`,
evaluated on one row. -/
def rowMatches (f : Filters) (r : Row) : Bool :=
  (match truthy f.name with
   | some v => likeMatch (likePat v) r.last_name || likeMatch (likePat v) r.first_name
   | none => true) &&
  (match truthy f.city with
   | some v => likeMatch (likePat v) r.city
   | none => true) &&
  (match truthy f.state with
   | some v => r.state == pystrip (pyupper v)
   | none => true)

/-- Function `fetch_customers` from `app.py`: select the rows passing every present
filter, ordered by `created_at DESC, id DESC`. -/
def fetch_customers (filters : Option Filters) (db : DB) : List Row :=
  List.insertionSort rowLe
    (db.rows.filter (fun r =>
      match filters with
      | some f => rowMatches f r
      | none => true))

/-! ### The "Add Customer" form handler (`app.py` lines 229-253) -/

/-- The raw text-input values of the form, before any normalization. -/
structure RawInput where
  last_name : Str
  first_name : Str
  street : Str
  city : Str
  state : Str
  zip_code : Str
  loan_amount : ℚ
  estimated_value : ℚ
  occupancy_type : Str
deriving DecidableEq

/-- The `record` dictionary built on submit: text fields stripped, the
state stripped then uppercased, numbers passed through `float`. -/
def buildRecord (raw : RawInput) : CRec :=
  { last_name := pystrip raw.last_name
    first_name := pystrip raw.first_name
    street := pystrip raw.street
    city := pystrip raw.city
    state := pyupper (pystrip raw.state)
    zip_code := pystrip raw.zip_code
    loan_amount := raw.loan_amount
    estimated_value := raw.estimated_value
    occupancy_type := raw.occupancy_type }

/-- The required-fields check: `any(not record[k] for k in [...])`. -/
def requiredEmpty (rec : CRec) : Bool :=
  rec.last_name == ([] : Str) || rec.first_name == ([] : Str) ||
  rec.street == ([] : Str) || rec.city == ([] : Str) ||
  rec.state == ([] : Str) || rec.zip_code == ([] : Str)

def requiredErrMsg : String := "Please complete all required fields marked with *."

/-- The submit branch of the form: required-fields check, then
`validate_inputs`, then `insert_customer`. -/
def submitForm (raw : RawInput) (t : ℕ) (db : DB) : Except String DB :=
  let record := buildRecord raw
  if requiredEmpty record then Except.error requiredErrMsg
  else
    match validate_inputs record with
    | some m => Except.error m
    | none => Except.ok (insert_customer record t db)

/-! ### Operation traces (for the id-freshness invariant) -/

/-- One user-level mutation of the customers table. -/
inductive Op
  | create (rec : CRec) (t : ℕ)
  | del (i : ℕ)

/-- Run a sequence of operations, collecting the ids assigned by each
`create` in order. -/
def runOps : DB → List Op → DB × List ℕ
  | db, [] => (db, [])
  | db, Op.create rec t :: ops =>
      let res := runOps (insert_customer rec t db) ops
      (res.1, db.nextId :: res.2)
  | db, Op.del i :: ops => runOps (delete_customer i db) ops

/-- Well-formedness maintained by the storage layer: stored ids are below
the AUTOINCREMENT counter and pairwise distinct (`id` is the primary key). -/
def WFdb (db : DB) : Prop :=
  (∀ r ∈ db.rows, r.id < db.nextId) ∧ (db.rows.map (fun r => r.id)).Nodup

instance (db : DB) : Decidable (WFdb db) := by
  unfold WFdb; exact inferInstance

/-! ### Metrics (`app.py` lines 175-182) -/

/-- Metric `total_customers = len(df_all)`. -/
def total_customers (rows : List Row) : ℕ := rows.length

/-- Metric `total_loan = float(df_all["loan_amount"].sum()) if total_customers else 0.0`. -/
def total_loan (rows : List Row) : ℚ :=
  if total_customers rows ≠ 0 then (rows.map (fun r => r.loan_amount)).sum else 0

/-- The per-row clipped loan-to-value ratio
`(loan_amount / estimated_value).clip(upper=5)`. -/
def ltv_clip (r : Row) : ℚ := min (r.loan_amount / r.estimated_value) 5

/-- Metric `avg_ltv`: mean of the clipped ratios times 100, or `None` when the
table is empty. -/
def avg_ltv (rows : List Row) : Option ℚ :=
  if total_customers rows ≠ 0 then
    some (((rows.map ltv_clip).sum / (rows.length : ℚ)) * 100)
  else none

/-! ### The "Delete a Row" button (`app.py` lines 289-297)

The handler calls `delete_customer(int())` — `int()` is `0` — instead of
`delete_customer(int(did))`, so the selected row id is ignored. -/

/-- The value of the Python expression `int()`. -/
def pyIntDefault : ℕ := 0

/-- The action performed when "Delete Selected Row" is clicked with row
`did` selected. -/
def delete_button_action (_did : ℕ) (db : DB) : DB :=
  delete_customer pyIntDefault db

/-! ### The secondary implementation (`main.py`)

`update_user` executes `'UPDATE users SET name = ?, age = ?, WHERE id = ?'`
(stray comma before `WHERE`) and `delete_user` executes
`'DELETE FROM users WHERE id = ?'` with parameters `(id)` — a plain
integer, not a tuple.  `sqlite3` first parses the statement, then
requires the parameters to be a sequence; we model both checks. -/

/-- SQL tokens relevant to the statements in the repository. -/
inductive Tok
  | ident (s : Str)
  | eq
  | qmark
  | comma
deriving DecidableEq

/-- Character-level SQL tokenizer: splits on spaces, `=`, `?`, `,`;
other runs of characters form identifiers. -/
def tokenizeAux : Str → Str → List Tok
  | acc, [] => if acc = [] then [] else [Tok.ident acc.reverse]
  | acc, c :: rest =>
    let flush : List Tok := if acc = [] then [] else [Tok.ident acc.reverse]
    if c == ' ' then flush ++ tokenizeAux [] rest
    else if c == '=' then flush ++ Tok.eq :: tokenizeAux [] rest
    else if c == '?' then flush ++ Tok.qmark :: tokenizeAux [] rest
    else if c == ',' then flush ++ Tok.comma :: tokenizeAux [] rest
    else tokenizeAux (c :: acc) rest

def tokenizeSQL (s : String) : List Tok := tokenizeAux [] s.toList

/-- Parse the comma-separated `SET` assignment list `col = ?, ...`,
returning the unconsumed tokens. -/
def parseSetList : List Tok → Option (List Tok)
  | Tok.ident _ :: Tok.eq :: Tok.qmark :: Tok.comma :: rest => parseSetList rest
  | Tok.ident _ :: Tok.eq :: Tok.qmark :: rest => some rest
  | _ => none

/-- Parse a final `WHERE col = ?` clause. -/
def parseWhereEq : List Tok → Bool
  | [Tok.ident w, Tok.ident _, Tok.eq, Tok.qmark] => w == "WHERE".toList
  | _ => false

/-- Does the string parse as `UPDATE tbl SET col = ?, ... WHERE col = ?`? -/
def sqlUpdateOk (s : String) : Bool :=
  match tokenizeSQL s with
  | Tok.ident u :: Tok.ident _ :: Tok.ident st :: rest =>
      u == "UPDATE".toList && st == "SET".toList &&
      (match parseSetList rest with
       | some rest' => parseWhereEq rest'
       | none => false)
  | _ => false

/-- Does the string parse as `DELETE FROM tbl WHERE col = ?`? -/
def sqlDeleteOk (s : String) : Bool :=
  match tokenizeSQL s with
  | [Tok.ident d, Tok.ident fr, Tok.ident _, Tok.ident w, Tok.ident _,
     Tok.eq, Tok.qmark] =>
      d == "DELETE".toList && fr == "FROM".toList && w == "WHERE".toList
  | _ => false

/-- One row of the `users` table of `main.py`. -/
structure User where
  id : ℕ
  name : Str
  age : ℤ
deriving DecidableEq

/-- A Python value passed as a bind parameter. -/
inductive PyVal
  | int (n : ℤ)
  | str (s : Str)
deriving DecidableEq

/-- The `parameters` argument of `cursor.execute`: either a scalar
(a Python `int`, as in `(id)`) or a real tuple. -/
inductive PyParams
  | scalar (v : PyVal)
  | tuple (vs : List PyVal)
deriving DecidableEq

def updateUserSQL : String := "UPDATE users SET name = ?, age = ?, WHERE id = ?"

def fixedUpdateSQL : String := "UPDATE users SET name = ?, age = ? WHERE id = ?"

def deleteUserSQL : String := "DELETE FROM users WHERE id = ?"

def updateErrMsg : String := "sqlite3.OperationalError: near \x22WHERE\x22: syntax error"

def bindErrMsg : String := "ValueError: parameters are of unsupported type"

/-- Function `update_user` from `main.py`: `cursor.execute` first parses the SQL,
raising an `OperationalError` on a syntax error; on success it would
update the matching row. -/
def update_user (i : ℕ) (nm : Str) (ag : ℤ) (tbl : List User) :
    Except String (List User) :=
  if sqlUpdateOk updateUserSQL then
    Except.ok (tbl.map (fun u => if u.id = i then { u with name := nm, age := ag } else u))
  else Except.error updateErrMsg

/-- Model of `cursor.execute` for a well-formed single-`?` DELETE: the parameters
must be a sequence containing exactly the one bound value. -/
def executeDelete (sql : String) (params : PyParams) (tbl : List User) :
    Except String (List User) :=
  if sqlDeleteOk sql then
    match params with
    | PyParams.tuple [PyVal.int i] => Except.ok (tbl.filter (fun u => (u.id : ℤ) ≠ i))
    | PyParams.tuple _ => Except.error "Incorrect number of bindings supplied"
    | PyParams.scalar _ => Except.error bindErrMsg
  else Except.error "syntax error"

/-- Function `delete_user` from `main.py`: passes the raw integer `(id)` where a
sequence of bind parameters is expected. -/
def delete_user (i : ℤ) (tbl : List User) : Except String (List User) :=
  executeDelete deleteUserSQL (PyParams.scalar (PyVal.int i)) tbl

/-- The `users` table after calling `update_user`: the exception
propagates before `conn.commit()`, so the table is unchanged on error. -/
def runUpdateUser (i : ℕ) (nm : Str) (ag : ℤ) (tbl : List User) : List User :=
  match update_user i nm ag tbl with
  | Except.ok t => t
  | Except.error _ => tbl

/-- The `users` table after calling `delete_user`. -/
def runDeleteUser (i : ℤ) (tbl : List User) : List User :=
  match delete_user i tbl with
  | Except.ok t => t
  | Except.error _ => tbl

/-! ### Specification-side predicates

These express the words of the specification ("contains the filter string
as a case-insensitive substring", "absent filters impose no constraint")
independently of the SQL `LIKE` machinery, for comparison with
`fetch_customers`. -/

/-- Is the first string a prefix of the second (literal comparison)? -/
def isPrefOf : Str → Str → Bool
  | [], _ => true
  | _ :: _, [] => false
  | a :: xs, b :: ys => a == b && isPrefOf xs ys

/-- Is `n` a contiguous substring of the second argument? -/
def isSubstr (n : Str) : Str → Bool
  | [] => isPrefOf n []
  | c :: h => isPrefOf n (c :: h) || isSubstr n h

/-- Case-insensitive substring containment (ASCII folding). -/
def containsCI (n h : Str) : Bool :=
  isSubstr (n.map Char.toLower) (h.map Char.toLower)

/-- The filter string contains no SQL `LIKE` wildcard. -/
def noWildcard (s : Str) : Bool := s.all (fun c => !(c == '%' || c == '_'))

/-- Both as an absent key and as an empty string, a filter is wildcard-free. -/
def noWildcardOpt : Option Str → Bool
  | none => true
  | some s => noWildcard s

/-- A present, non-empty filter string must satisfy `p`; an absent or
empty filter imposes no constraint. -/
def optFilterSat : Option Str → (Str → Bool) → Bool
  | none, _ => true
  | some s, p => if s = [] then true else p s

/-! ### Concrete sample data -/

/-- The worked example of the specification (§8): Jane Doe, Phoenix AZ. -/
def demoRow : Row :=
  { id := 1
    last_name := "Doe".toList
    first_name := "Jane".toList
    street := "123 Main St".toList
    city := "Phoenix".toList
    state := "AZ".toList
    zip_code := "85212".toList
    loan_amount := 200000
    estimated_value := 250000
    occupancy_type := "Primary Residence".toList
    created_at := 10 }

/-- A one-row database holding `demoRow`. -/
def demoDB : DB := ⟨[demoRow], 2⟩

/-- The raw form input of the specification's end-to-end example
(state entered as lowercase `"az"`). -/
def demoRaw : RawInput :=
  { last_name := "Doe".toList
    first_name := "Jane".toList
    street := "123 Main St".toList
    city := "Phoenix".toList
    state := "az".toList
    zip_code := "85212".toList
    loan_amount := 200000
    estimated_value := 250000
    occupancy_type := "Primary Residence".toList }

/-- A candidate record failing the state rule (3-letter state). -/
def badStateRec : CRec :=
  { last_name := "Doe".toList
    first_name := "Jane".toList
    street := "123 Main St".toList
    city := "Phoenix".toList
    state := "AZX".toList
    zip_code := "85212".toList
    loan_amount := 200000
    estimated_value := 250000
    occupancy_type := "Primary Residence".toList }

/-- A row with loan-to-value ratio 0.5. -/
def ratioHalfRow : Row :=
  { demoRow with id := 2, loan_amount := 1, estimated_value := 2 }

/-- A row with loan-to-value ratio 8 (clipped to 5 by the aggregator). -/
def ratioEightRow : Row :=
  { demoRow with id := 3, loan_amount := 8, estimated_value := 1 }

/-! ## Helper lemmas -/

/-- Every id assigned along a run is at least the starting counter, and
the assigned ids strictly increase in order of assignment. -/
theorem runOps_assigned_lb : ∀ (ops : List Op) (db : DB),
    (∀ a ∈ (runOps db ops).2, db.nextId ≤ a) ∧
    ((runOps db ops).2).Pairwise (· < ·)
  | [], db => by simp [runOps]
  | Op.create rec t :: ops, db => by
      have ih := runOps_assigned_lb ops (insert_customer rec t db)
      simp only [runOps, insert_customer] at ih ⊢
      refine ⟨?_, List.pairwise_cons.mpr ⟨fun a ha => ?_, ih.2⟩⟩
      · intro a ha
        rcases List.mem_cons.mp ha with h | h
        · omega
        · have := ih.1 a h
          omega
      · have := ih.1 a ha
        omega
  | Op.del i :: ops, db => by
      have ih := runOps_assigned_lb ops (delete_customer i db)
      simpa [runOps, delete_customer] using ih

/-- When the stored ids are pairwise distinct, deleting one id removes at
most one row. -/
theorem filter_ne_id_length (i : ℕ) :
    ∀ l : List Row, (l.map (fun r => r.id)).Nodup →
      l.length ≤ (l.filter (fun r => r.id ≠ i)).length + 1
  | [], _ => by simp
  | a :: l, h => by
      simp only [List.map_cons, List.nodup_cons, List.mem_map] at h
      have hfc : (a :: l).filter (fun r => r.id ≠ i)
          = if decide (a.id ≠ i) = true then a :: l.filter (fun r => r.id ≠ i)
            else l.filter (fun r => r.id ≠ i) := List.filter_cons
      by_cases hai : a.id = i
      · have heq : l.filter (fun r => r.id ≠ i) = l := by
          refine List.filter_eq_self.mpr fun r hr => ?_
          simp only [decide_eq_true_eq]
          exact fun hri => h.1 ⟨r, hr, by omega⟩
        rw [hfc, if_neg (by simp [hai]), heq]
        simp
      · have ih := filter_ne_id_length i l h.2
        rw [hfc, if_pos (by simp [hai])]
        simp only [List.length_cons]
        omega

/-! ## Claim theorems -/

/-- Claim C1: for every candidate record, `validate_inputs` returns `none`
exactly when the state matches `^[A-Za-z]{2}$`, the zip matches
`^\d{5}(-\d{4})?$`, and both amounts are positive; otherwise it returns a
non-empty message naming the first violated rule in the fixed order
state, zip_code, loan_amount, estimated_value. -/
theorem validate_inputs_spec (d : CRec) :
    (validate_inputs d = none ↔
      (STATE_RE_match d.state = true ∧ ZIP_RE_match d.zip_code = true ∧
        0 < d.loan_amount ∧ 0 < d.estimated_value)) ∧
    (∀ m, validate_inputs d = some m → m ≠ "") ∧
    (STATE_RE_match d.state = false → validate_inputs d = some stateMsg) ∧
    (STATE_RE_match d.state = true → ZIP_RE_match d.zip_code = false →
      validate_inputs d = some zipMsg) ∧
    (STATE_RE_match d.state = true → ZIP_RE_match d.zip_code = true →
      d.loan_amount ≤ 0 → validate_inputs d = some loanMsg) ∧
    (STATE_RE_match d.state = true → ZIP_RE_match d.zip_code = true →
      0 < d.loan_amount → d.estimated_value ≤ 0 →
      validate_inputs d = some valueMsg) := by
  refine ⟨?_, ?_, ?_, ?_, ?_, ?_⟩
  · unfold validate_inputs
    split_ifs with h1 h2 h3 h4 <;> simp_all [not_le]
  · intro m hm
    unfold validate_inputs at hm
    split_ifs at hm <;> (injection hm with hm; subst hm; decide)
  · intro h1
    unfold validate_inputs
    rw [if_pos (by simp [h1])]
  · intro h1 h2
    unfold validate_inputs
    rw [if_neg (by simp [h1]), if_pos (by simp [h2])]
  · intro h1 h2 h3
    unfold validate_inputs
    rw [if_neg (by simp [h1]), if_neg (by simp [h2]), if_pos h3]
  · intro h1 h2 h3 h4
    unfold validate_inputs
    rw [if_neg (by simp [h1]), if_neg (by simp [h2]), if_neg (by simp [not_le, h3]),
      if_pos h4]

/-- Witness for C1: the validator flags the malformed 3-letter state of
`badStateRec` with the state message. -/
theorem validate_inputs_spec_witness :
    validate_inputs badStateRec = some stateMsg :=
  (validate_inputs_spec badStateRec).2.2.1 (by decide)

/-- Claim C5: `summarize` reports the record count, the sum of loan
amounts (0 when empty), and the average of the ratios
`min (loan_amount / estimated_value) 5` times 100, absent on an empty
record set; the two records with ratios 0.5 and 8 average to 275. -/
theorem summarize_spec (rows : List Row)
    (hpos : ∀ r ∈ rows, 0 < r.estimated_value) :
    total_customers rows = rows.length ∧
    total_loan rows = (rows.map (fun r => r.loan_amount)).sum ∧
    total_loan [] = 0 ∧
    avg_ltv [] = none ∧
    (rows ≠ [] → avg_ltv rows =
      some ((((rows.map (fun r =>
        min (r.loan_amount / r.estimated_value) 5)).sum) / rows.length) * 100)) ∧
    avg_ltv [ratioHalfRow, ratioEightRow] = some 275 := by
  refine ⟨rfl, ?_, rfl, rfl, ?_, ?_⟩
  · unfold total_loan total_customers
    split_ifs with h
    · rfl
    · simp at h
      simp [h]
  · intro h
    unfold avg_ltv ltv_clip total_customers
    rw [if_pos (by simpa using h)]
  · norm_num [avg_ltv, ltv_clip, ratioHalfRow, ratioEightRow, demoRow, total_customers]

/-- Witness for C5: the aggregate contract instantiated at the one-row
table holding the example record. -/
theorem summarize_spec_witness :
    total_customers [demoRow] = [demoRow].length :=
  (summarize_spec [demoRow] (by decide)).1

/-- Claim C7: along any sequence of create and delete operations, the ids
assigned by the creations are strictly increasing, so an id is never
reused after a deletion. -/
theorem assigned_ids_strictly_increase (db : DB) (ops : List Op) :
    ((runOps db ops).2).Pairwise (· < ·) :=
  (runOps_assigned_lb ops db).2

/-- Claim C10: passing empty strings for every filter behaves exactly like
passing no filters at all. -/
theorem empty_filters_no_constraint (db : DB) :
    fetch_customers (some ⟨some [], some [], some []⟩) db =
      fetch_customers none db := rfl

/-- Claim C8: in `main.py`, `update_user` always raises (its SQL has a
stray comma before `WHERE` — the comma-free statement parses fine),
`delete_user` always raises (a raw integer is passed where a sequence of
bind parameters is expected), both leave the table unchanged, and the
dashboard's delete button ignores the selected row id, always deleting
id 0. -/
theorem secondary_impl_broken :
    (∀ (i : ℕ) (nm : Str) (ag : ℤ) (tbl : List User),
        update_user i nm ag tbl = Except.error updateErrMsg ∧
        runUpdateUser i nm ag tbl = tbl) ∧
    (∀ (i : ℤ) (tbl : List User),
        delete_user i tbl = Except.error bindErrMsg ∧
        runDeleteUser i tbl = tbl) ∧
    (∀ (did did' : ℕ) (db : DB),
        delete_button_action did db = delete_button_action did' db ∧
        delete_button_action did db = delete_customer 0 db) ∧
    sqlUpdateOk updateUserSQL = false ∧
    sqlUpdateOk fixedUpdateSQL = true := by
  refine ⟨fun i nm ag tbl => ⟨rfl, rfl⟩, fun i tbl => ⟨rfl, rfl⟩,
    fun did did' db => ⟨rfl, rfl⟩, by decide, by decide⟩

/-- Claim C4: `delete_customer` is total (no error on unknown ids), a
subsequent unfiltered `fetch_customers` never contains the deleted id,
at most one row is removed, and an absent id leaves the table unchanged. -/
theorem delete_customer_spec (db : DB) (i : ℕ) (hWF : WFdb db) :
    (∀ r ∈ fetch_customers none (delete_customer i db), r.id ≠ i) ∧
    (delete_customer i db).rows.length ≤ db.rows.length ∧
    db.rows.length ≤ (delete_customer i db).rows.length + 1 ∧
    ((∀ r ∈ db.rows, r.id ≠ i) → delete_customer i db = db) := by
  refine ⟨?_, ?_, ?_, ?_⟩
  · intro r hr
    simp only [fetch_customers, delete_customer, List.mem_insertionSort,
      List.mem_filter] at hr
    simpa using hr.1.2
  · exact List.length_filter_le _ _
  · exact filter_ne_id_length i db.rows hWF.2
  · intro h
    have heq : db.rows.filter (fun r => r.id ≠ i) = db.rows :=
      List.filter_eq_self.mpr fun r hr => by simpa using h r hr
    unfold delete_customer
    rw [heq]

/-- Witness for C4: deleting the absent id 5 from the sample database
leaves it unchanged. -/
theorem delete_customer_spec_witness :
    delete_customer 5 demoDB = demoDB :=
  (delete_customer_spec demoDB 5 (by decide)).2.2.2 (by decide)

/-- Claim C6: when the create path admits a record, the persisted state is
the stripped-then-uppercased form of the entered state, and every
required text field is persisted stripped and non-empty. -/
theorem create_path_normalizes (raw : RawInput) (t : ℕ) (db db' : DB)
    (h : submitForm raw t db = Except.ok db') :
    ∃ row : Row,
      db'.rows = db.rows ++ [row] ∧
      row.state = pyupper (pystrip raw.state) ∧ row.state ≠ [] ∧
      row.last_name = pystrip raw.last_name ∧ row.last_name ≠ [] ∧
      row.first_name = pystrip raw.first_name ∧ row.first_name ≠ [] ∧
      row.street = pystrip raw.street ∧ row.street ≠ [] ∧
      row.city = pystrip raw.city ∧ row.city ≠ [] ∧
      row.zip_code = pystrip raw.zip_code ∧ row.zip_code ≠ [] := by
  simp only [submitForm] at h
  split_ifs at h with hre
  cases hv : validate_inputs (buildRecord raw) with
  | some m => rw [hv] at h; exact absurd h (by simp)
  | none =>
      rw [hv] at h
      injection h with h
      subst h
      simp only [requiredEmpty, Bool.or_eq_true, beq_iff_eq, not_or] at hre
      obtain ⟨⟨⟨⟨⟨h1, h2⟩, h3⟩, h4⟩, h5⟩, h6⟩ := hre
      exact ⟨mkRow db.nextId (buildRecord raw) t, rfl, rfl, h5, rfl,
        h1, rfl, h2, rfl, h3, rfl, h4, rfl, h6⟩

/-- Witness for C6: the end-to-end example — state entered as `"az"` is
persisted as `"AZ"` with all required fields non-empty. -/
theorem create_path_normalizes_witness :
    ∃ row : Row,
      (insert_customer (buildRecord demoRaw) 0 initDB).rows = initDB.rows ++ [row] ∧
      row.state = pyupper (pystrip demoRaw.state) ∧ row.state ≠ [] ∧
      row.last_name = pystrip demoRaw.last_name ∧ row.last_name ≠ [] ∧
      row.first_name = pystrip demoRaw.first_name ∧ row.first_name ≠ [] ∧
      row.street = pystrip demoRaw.street ∧ row.street ≠ [] ∧
      row.city = pystrip demoRaw.city ∧ row.city ≠ [] ∧
      row.zip_code = pystrip demoRaw.zip_code ∧ row.zip_code ≠ [] :=
  create_path_normalizes demoRaw 0 initDB _ (by rfl)

/-- Fetching with no filters sorts the stored rows. -/
theorem fetch_none_eq (db : DB) :
    fetch_customers none db = List.insertionSort rowLe db.rows := by
  unfold fetch_customers
  congr 1
  exact List.filter_eq_self.mpr fun r _ => rfl

/-- Inserting an element strictly greater than everything in the list
sorts to the front. -/
theorem insertionSort_append_max (x : Row) :
    ∀ l : List Row, (∀ y ∈ l, rowGt x y) →
      List.insertionSort rowLe (l ++ [x]) = x :: List.insertionSort rowLe l
  | [], _ => rfl
  | a :: l, hx => by
      have ih := insertionSort_append_max x l
        (fun y hy => hx y (List.mem_cons_of_mem a hy))
      have hxa : rowGt x a := hx a (List.mem_cons_self a l)
      have hnle : ¬ rowLe a x := by
        unfold rowGt at hxa
        unfold rowLe
        omega
      show List.orderedInsert rowLe a (List.insertionSort rowLe (l ++ [x]))
        = x :: List.orderedInsert rowLe a (List.insertionSort rowLe l)
      rw [ih]
      simp only [List.orderedInsert, if_neg hnle]

/-- Claim C3: the unfiltered listing is strictly ordered by
`created_at DESC, id DESC` (deterministic ordering), and a newly created
record heads the listing — hence appears exactly once, before every
record created earlier. -/
theorem fetch_ordering_and_insert (db : DB) (rec : CRec) (t : ℕ)
    (hWF : WFdb db) (ht : ∀ r ∈ db.rows, r.created_at ≤ t) :
    List.Pairwise rowGt (fetch_customers none db) ∧
    fetch_customers none (insert_customer rec t db)
      = mkRow db.nextId rec t :: fetch_customers none db ∧
    (fetch_customers none (insert_customer rec t db)).count
      (mkRow db.nextId rec t) = 1 := by
  have hmain : fetch_customers none (insert_customer rec t db)
      = mkRow db.nextId rec t :: fetch_customers none db := by
    rw [fetch_none_eq, fetch_none_eq]
    show List.insertionSort rowLe (db.rows ++ [mkRow db.nextId rec t]) = _
    refine insertionSort_append_max _ db.rows fun y hy => ?_
    have h1 := hWF.1 y hy
    have h2 := ht y hy
    unfold rowGt
    simp only [mkRow]
    omega
  refine ⟨?_, hmain, ?_⟩
  · rw [fetch_none_eq]
    have hsorted : List.Pairwise rowLe (List.insertionSort rowLe db.rows) :=
      List.sorted_insertionSort rowLe db.rows
    have hperm : List.Perm (List.insertionSort rowLe db.rows) db.rows :=
      List.perm_insertionSort rowLe db.rows
    have hnodup : List.Pairwise (fun a b : ℕ => a ≠ b)
        (db.rows.map (fun r => r.id)) := hWF.2
    have hne : List.Pairwise (fun a b : Row => a.id ≠ b.id) db.rows :=
      List.pairwise_map.mp hnodup
    have hne' : List.Pairwise (fun a b : Row => a.id ≠ b.id)
        (List.insertionSort rowLe db.rows) :=
      (hperm.pairwise_iff (fun h he => h he.symm)).mpr hne
    refine (hsorted.and hne').imp ?_
    intro a b hab
    unfold rowLe at hab
    unfold rowGt
    omega
  · rw [hmain, List.count_cons_self]
    have hnotmem : mkRow db.nextId rec t ∉ fetch_customers none db := by
      rw [fetch_none_eq]
      intro hmem
      have := hWF.1 _ ((List.mem_insertionSort rowLe).mp hmem)
      simp only [mkRow] at this
      omega
    rw [List.count_eq_zero.mpr hnotmem]

/-- Witness for C3: inserting the example record at time 10 into the
sample database puts it at the head of the listing. -/
theorem fetch_ordering_and_insert_witness :
    fetch_customers none (insert_customer (buildRecord demoRaw) 10 demoDB)
      = mkRow demoDB.nextId (buildRecord demoRaw) 10 :: fetch_customers none demoDB :=
  (fetch_ordering_and_insert demoDB (buildRecord demoRaw) 10
    (by decide) (by decide)).2.1

/-- Unfolding equation: a `%` at the head of the pattern tries every suffix. -/
theorem likeMatch_percent_cons (p : Str) :
    likeMatch ('%' :: p) = likeSuffixAny (likeMatch p) := by
  unfold likeMatch
  rw [if_pos rfl]
  cases p <;> rfl

/-- Unfolding equation: a non-`%` pattern character steps by `likeStep`. -/
theorem likeMatch_cons_ne {a : Char} (ha : a ≠ '%') (p : Str) :
    likeMatch (a :: p) = likeStep a (likeMatch p) := by
  unfold likeMatch
  rw [if_neg ha]
  cases p <;> rfl

/-- The pattern `%` matches every string. -/
theorem likeMatch_percent_nil : ∀ s : Str, likeMatch ['%'] s = true
  | [] => rfl
  | c :: s => by
      rw [likeMatch_percent_cons]
      show (likeMatch [] (c :: s) || likeSuffixAny (likeMatch []) s) = true
      rw [show likeSuffixAny (likeMatch []) s = likeMatch ['%'] s from
        (congrFun (likeMatch_percent_cons []) s).symm]
      rw [likeMatch_percent_nil s]
      simp

/-- The pattern `%%%` (built from the filter string `%`) matches every string. -/
theorem likeMatch_all_percent3 (s : Str) : likeMatch ['%', '%', '%'] s = true := by
  rw [likeMatch_percent_cons]
  cases s with
  | nil =>
      show likeMatch ['%', '%'] [] = true
      rw [likeMatch_percent_cons]
      rfl
  | cons c s' =>
      show (likeMatch ['%', '%'] (c :: s') || likeSuffixAny (likeMatch ['%', '%']) s') = true
      have h2 : likeMatch ['%', '%'] (c :: s') = true := by
        rw [likeMatch_percent_cons]
        show (likeMatch ['%'] (c :: s') || likeSuffixAny (likeMatch ['%']) s') = true
        rw [likeMatch_percent_nil (c :: s')]
        simp
      rw [h2]
      simp

/-- A wildcard-free pattern followed by `%` matches exactly the strings it
is a case-folded prefix of. -/
theorem likeMatch_append_percent :
    ∀ (p : Str), noWildcard p = true → ∀ s : Str,
      likeMatch (p ++ ['%']) s = isPrefOf (p.map Char.toLower) (s.map Char.toLower)
  | [], _, s => by simp [likeMatch_percent_nil s, isPrefOf]
  | a :: p, h, s => by
      simp only [noWildcard, List.all_cons, Bool.and_eq_true] at h
      have ha1 : a ≠ '%' := by
        intro hae; rw [hae] at h; simp at h
      have ha2 : a ≠ '_' := by
        intro hae; rw [hae] at h; simp at h
      have hp : noWildcard p = true := h.2
      show likeMatch (a :: (p ++ ['%'])) s = _
      rw [likeMatch_cons_ne ha1]
      cases s with
      | nil => rfl
      | cons c s' =>
          show ((if a = '_' then true else Char.toLower a == Char.toLower c) &&
              likeMatch (p ++ ['%']) s') = _
          rw [if_neg ha2, likeMatch_append_percent p hp s']
          rfl

/-- The `LIKE` pattern `f"%{v}%"` with a wildcard-free `v` tests exactly
case-insensitive substring containment. -/
theorem likeMatch_pat (p : Str) (hp : noWildcard p = true) :
    ∀ s : Str,
      likeMatch (likePat p) s = isSubstr (p.map Char.toLower) (s.map Char.toLower)
  | [] => by
      show likeMatch ('%' :: (p ++ ['%'])) [] = _
      rw [likeMatch_percent_cons]
      show likeMatch (p ++ ['%']) [] = _
      rw [likeMatch_append_percent p hp []]
      rfl
  | c :: s' => by
      show likeMatch ('%' :: (p ++ ['%'])) (c :: s') = _
      rw [likeMatch_percent_cons]
      show (likeMatch (p ++ ['%']) (c :: s')
          || likeSuffixAny (likeMatch (p ++ ['%'])) s') = _
      rw [likeMatch_append_percent p hp (c :: s')]
      rw [show likeSuffixAny (likeMatch (p ++ ['%'])) s'
          = likeMatch (likePat p) s' from
        (congrFun (likeMatch_percent_cons (p ++ ['%'])) s').symm]
      rw [likeMatch_pat p hp s']
      rfl

/-- The pattern `%_%` matches exactly the non-empty strings. -/
theorem likeMatch_underscore (s : Str) :
    likeMatch (likePat ['_']) s = true ↔ s ≠ [] := by
  show likeMatch ['%', '_', '%'] s = true ↔ s ≠ []
  rw [likeMatch_percent_cons]
  cases s with
  | nil =>
      show likeMatch ['_', '%'] [] = true ↔ _
      rw [likeMatch_cons_ne (by decide : ('_' : Char) ≠ '%')]
      simp [likeStep]
  | cons c s' =>
      constructor
      · intro _
        exact List.cons_ne_nil c s'
      · intro _
        show (likeMatch ['_', '%'] (c :: s')
            || likeSuffixAny (likeMatch ['_', '%']) s') = true
        have h1 : likeMatch ['_', '%'] (c :: s') = true := by
          rw [likeMatch_cons_ne (by decide : ('_' : Char) ≠ '%')]
          show ((if ('_' : Char) = '_' then true
              else Char.toLower '_' == Char.toLower c) && likeMatch ['%'] s') = true
          rw [if_pos rfl, likeMatch_percent_nil s']
          rfl
        rw [h1]
        simp

/-- Claim C9: name and city filter strings are interpreted with SQL `LIKE`
wildcard semantics, not literally: the filter string `%` selects every
record, and `_` matches any single character (the filter `_` selects
exactly the strings with at least one character). -/
theorem like_wildcard_semantics :
    (∀ db : DB, fetch_customers (some ⟨some ['%'], none, none⟩) db
        = fetch_customers none db) ∧
    (∀ s : Str, likeMatch (likePat ['_']) s = true ↔ s ≠ []) := by
  refine ⟨fun db => ?_, likeMatch_underscore⟩
  unfold fetch_customers
  congr 1
  rw [List.filter_eq_self.mpr, List.filter_eq_self.mpr]
  · exact fun r _ => rfl
  · intro r _
    show rowMatches ⟨some ['%'], none, none⟩ r = true
    show ((likeMatch (likePat ['%']) r.last_name
        || likeMatch (likePat ['%']) r.first_name) && true && true) = true
    rw [show likePat ['%'] = ['%', '%', '%'] from rfl,
      likeMatch_all_percent3 r.last_name]
    rfl

/-- Counterexample to C2 as stated: the filter string `%` selects the
sample record even though `%` is not a substring of either of its name
fields — wildcard characters are not matched literally. -/
theorem substring_filter_counterexample :
    demoRow ∈ fetch_customers (some ⟨some ['%'], none, none⟩) demoDB ∧
    containsCI ['%'] demoRow.last_name = false ∧
    containsCI ['%'] demoRow.first_name = false := by decide

/-- Claim C2 (amended to wildcard-free name and city filter strings, with
an empty present filter string behaving like an absent filter): `list`
returns exactly the stored records satisfying every present filter — name
and city by case-insensitive substring, state by equality with the
stripped-and-uppercased filter string. -/
theorem fetch_filters_spec (db : DB) (f : Filters) (r : Row)
    (hn : noWildcardOpt f.name = true) (hc : noWildcardOpt f.city = true) :
    r ∈ fetch_customers (some f) db ↔
      (r ∈ db.rows ∧
        (optFilterSat f.name
            (fun s => containsCI s r.last_name || containsCI s r.first_name) &&
         optFilterSat f.city (fun s => containsCI s r.city) &&
         optFilterSat f.state (fun s => r.state == pystrip (pyupper s))) = true) := by
  unfold fetch_customers
  rw [List.mem_insertionSort, List.mem_filter]
  refine and_congr_right fun _ => ?_
  show rowMatches f r = true ↔ _
  have hname : (match truthy f.name with
      | some v => likeMatch (likePat v) r.last_name || likeMatch (likePat v) r.first_name
      | none => true)
      = optFilterSat f.name
          (fun s => containsCI s r.last_name || containsCI s r.first_name) := by
    rcases hfn : f.name with _ | s
    · rfl
    · rw [hfn] at hn
      by_cases hs : s = []
      · subst hs; rfl
      · simp only [truthy, optFilterSat]
        rw [if_neg hs, if_neg hs]
        have hcl : noWildcard s = true := hn
        show (likeMatch (likePat s) r.last_name
            || likeMatch (likePat s) r.first_name) = _
        rw [likeMatch_pat s hcl r.last_name, likeMatch_pat s hcl r.first_name]
        rfl
  have hcity : (match truthy f.city with
      | some v => likeMatch (likePat v) r.city
      | none => true)
      = optFilterSat f.city (fun s => containsCI s r.city) := by
    rcases hfc : f.city with _ | s
    · rfl
    · rw [hfc] at hc
      by_cases hs : s = []
      · subst hs; rfl
      · simp only [truthy, optFilterSat]
        rw [if_neg hs, if_neg hs]
        have hcl : noWildcard s = true := hc
        show likeMatch (likePat s) r.city = _
        rw [likeMatch_pat s hcl r.city]
        rfl
  have hstate : (match truthy f.state with
      | some v => r.state == pystrip (pyupper v)
      | none => true)
      = optFilterSat f.state (fun s => r.state == pystrip (pyupper s)) := by
    rcases f.state with _ | s
    · rfl
    · by_cases hs : s = []
      · subst hs; rfl
      · simp only [truthy, optFilterSat]
        rw [if_neg hs, if_neg hs]
  unfold rowMatches
  rw [hname, hcity, hstate]

/-- Witness for C2: a lowercase name filter and a state filter with
trailing whitespace select the sample record. -/
theorem fetch_filters_spec_witness :
    demoRow ∈ fetch_customers
      (some ⟨some "do".toList, none, some "az ".toList⟩) demoDB :=
  (fetch_filters_spec demoDB ⟨some "do".toList, none, some "az ".toList⟩ demoRow
    (by decide) (by decide)).mpr (by decide)

end Mortgages
